import Mathlib

/-!
# Verification of the Mystical Whispers story-to-comic pipeline

A shallow embedding of the repository's code, checked against its
natural-language specification.

The repository's visible code is the React frontend
(`EnhancedStoryInput.jsx`, `StoryInput.jsx`, `CharacterUpload`,
`ComicViewer`, `EnhancedComicViewer`, `ComicPanel`).  Those components are
embedded directly from the source.  The backend pipeline (`server.py`:
StoryParser, PromptEnhancer, ImageGenerationAdapter, ImageNormalizer,
ComicAssembler) is not part of the visible sources — only its callers and
its test log are — so those components are modelled from the specification,
each marked `Modelled from the spec:` in its doc comment.

JavaScript string primitives (`trim`, `toLowerCase`, `includes`,
template interpolation) are modelled by structurally recursive functions on
`List Char`, so that every definition evaluates inside the kernel.
-/

/-! ## String primitives, modelling the JavaScript string operations -/

/-- Model of lowercasing a character sequence (JS `String.toLowerCase`). -/
def lowerChars (l : List Char) : List Char := l.map Char.toLower

/-- Model of JS `String.toLowerCase`. -/
def strToLower (s : String) : String := String.mk (lowerChars s.data)

/-- Boolean check that `needle` occurs at the head of `hay`. -/
def headOccurs : List Char → List Char → Bool
  | [], _ => true
  | _ :: _, [] => false
  | a :: as, b :: bs => a == b && headOccurs as bs

/-- Boolean substring containment on character lists (JS `String.includes`). -/
def containsChars (needle : List Char) : List Char → Bool
  | [] => needle.isEmpty
  | c :: t => headOccurs needle (c :: t) || containsChars needle t

/-- Model of JS `hay.includes(needle)`. -/
def strIncludes (hay needle : String) : Bool := containsChars needle.data hay.data

/-- Trim leading and trailing whitespace from a character list. -/
def trimChars (l : List Char) : List Char :=
  ((l.dropWhile Char.isWhitespace).reverse.dropWhile Char.isWhitespace).reverse

/-- Model of JS `String.trim`. -/
def strTrim (s : String) : String := String.mk (trimChars s.data)

/-- Join a list of strings with a separator (JS `Array.join`). -/
def joinSep (sep : String) : List String → String
  | [] => ""
  | [x] => x
  | x :: y :: rest => x ++ sep ++ joinSep sep (y :: rest)

/-! ## Panel records as the frontend receives them

The viewer components read panels with fields
`panel` (the 1-based number), `scene`, `dialogue`,
`character_actions` (possibly absent) and `mood` (possibly absent).
Absent JS fields are modelled as `Option.none`; JS truthiness of a string
field is "present and non-empty". -/

structure PanelRec where
  panel : Nat
  scene : String
  dialogue : String
  character_actions : Option String
  mood : Option String
deriving Repr, DecidableEq

/-- JS truthiness of an optional string field: present and non-empty. -/
def optTruthy (o : Option String) : Bool :=
  match o with
  | none => false
  | some s => s != ""

/-- The text of an optional field, empty when the field is absent. -/
def optText (o : Option String) : String := o.getD ""

/-! ## Character tagging in the viewer components (source embedding)

`ComicPanel.jsx` (`src/unnamed/part_001`):

  const getCharacterTags = (text) => { ... }
  pushes "jamie" when text.toLowerCase().includes("jamie"), then likewise
  "kylee", and returns the pushed list.

called with the panel dialogue and actions joined by a single space. -/

def getCharacterTags (text : String) : List String :=
  (if strIncludes (strToLower text) "jamie" then ["jamie"] else []) ++
  (if strIncludes (strToLower text) "kylee" then ["kylee"] else [])

/-- The tag list `ComicPanel` computes for a panel: the source joins
`dialogue` and `character_actions || ''` with a single space. -/
def comicPanelTags (p : PanelRec) : List String :=
  getCharacterTags (p.dialogue ++ " " ++ optText p.character_actions)

/-- The inline tagging in `EnhancedComicViewer` (`src/unnamed/part_000`,
around lines 285-294): the jamie tag is shown when
panel.dialogue.toLowerCase().includes("jamie") or panel.character_actions is
truthy and contains "jamie" case-insensitively, and likewise for kylee. -/
def enhancedViewerTags (p : PanelRec) : List String :=
  (if strIncludes (strToLower p.dialogue) "jamie" ||
      (optTruthy p.character_actions &&
        strIncludes (strToLower (optText p.character_actions)) "jamie")
   then ["jamie"] else []) ++
  (if strIncludes (strToLower p.dialogue) "kylee" ||
      (optTruthy p.character_actions &&
        strIncludes (strToLower (optText p.character_actions)) "kylee")
   then ["kylee"] else [])

/-- Claim C9's wording of the tagging predicate: containment in the panel's
dialogue concatenated with its characterActions (empty string when absent),
with no separator between the two. -/
def claimTagsConcat (p : PanelRec) : List String :=
  getCharacterTags (p.dialogue ++ optText p.character_actions)

/-- The amended tagging predicate: case-insensitive containment in the
dialogue or in the characterActions text, considered separately. -/
def claimTagsSeparate (p : PanelRec) : List String :=
  (if strIncludes (strToLower p.dialogue) "jamie" ||
      strIncludes (strToLower (optText p.character_actions)) "jamie"
   then ["jamie"] else []) ++
  (if strIncludes (strToLower p.dialogue) "kylee" ||
      strIncludes (strToLower (optText p.character_actions)) "kylee"
   then ["kylee"] else [])

/-! ## Character lookup (source embedding)

`CharacterUpload` (second component in `EnhancedStoryInput.jsx`):

  finds the stored character whose name.toLowerCase() equals
  characterName.toLowerCase() and returns its data URL, or null when there
  is none.
-/

structure StoredCharacter where
  name : String
  image_base64 : String
deriving Repr, DecidableEq

def getCharacterImage (characters : List StoredCharacter) (characterName : String) :
    Option String :=
  match characters.find? (fun c => strToLower c.name == strToLower characterName) with
  | some character => some ("data:image/png;base64," ++ character.image_base64)
  | none => none

/-! ## Story submission (source embedding)

`EnhancedStoryInput.jsx` handleSubmit calls onSubmit only when story.trim()
is truthy, passing the trimmed story, the trimmed title with fallback
"Untitled Story", the style, the aspect ratio and the generate-images flag.
`StoryInput.jsx` handleSubmit is the same without style/format fields.
The payload field `aspect_ratio` is embedded as `aspectFmt`. -/

structure SubmitPayload where
  story : String
  title : String
  style : String
  aspectFmt : String
  generate_images : Bool
deriving Repr, DecidableEq

/-- `none` means the submit handler returned without calling `onSubmit`. -/
def handleSubmit (story title style aspectFmt : String) (generateImages : Bool) :
    Option SubmitPayload :=
  if strTrim story = "" then none
  else some
    { story := strTrim story
      title := if strTrim title = "" then "Untitled Story" else strTrim title
      style := style
      aspectFmt := aspectFmt
      generate_images := generateImages }

structure BasicPayload where
  story : String
  title : String
deriving Repr, DecidableEq

def handleSubmitBasic (story title : String) : Option BasicPayload :=
  if strTrim story = "" then none
  else some
    { story := strTrim story
      title := if strTrim title = "" then "Untitled Story" else strTrim title }

/-! ## Markdown export (source embedding)

`EnhancedComicViewer.handleExportMarkdown` (`src/unnamed/part_000`, lines
186-200) and `ComicViewer.handleExport` (second component of
`StoryInput.jsx`) build the identical template: a title header line, a blank line, and per
panel a block holding a panel-number heading, a Scene line, an Actions line
when character_actions is truthy, a Mood line when mood is truthy and a
Dialogue line, the blocks joined by newlines.
-/

def panelBlock (p : PanelRec) : String :=
  "## Panel " ++ toString p.panel ++ "\n**Scene:** " ++ p.scene ++ "\n" ++
  (if optTruthy p.character_actions then
    "**Actions:** " ++ optText p.character_actions ++ "\n" else "") ++
  (if optTruthy p.mood then "**Mood:** " ++ optText p.mood ++ "\n" else "") ++
  "**Dialogue:** " ++ p.dialogue ++ "\n"

def exportMarkdown (title : String) (panels : List PanelRec) : String :=
  "# " ++ title ++ "\n\n" ++ joinSep "\n" (panels.map panelBlock)

/-- Claim C10's line-level description of one panel's block: a header, a
Scene line and a Dialogue line always, an Actions line exactly when
`character_actions` is non-empty, a Mood line exactly when `mood` is
non-empty, and a trailing blank line separating it from the next block. -/
def specBlockLines (p : PanelRec) : List String :=
  ["## Panel " ++ toString p.panel, "**Scene:** " ++ p.scene] ++
  (if optText p.character_actions != "" then
    ["**Actions:** " ++ optText p.character_actions] else []) ++
  (if optText p.mood != "" then ["**Mood:** " ++ optText p.mood] else []) ++
  ["**Dialogue:** " ++ p.dialogue, ""]

/-- Claim C10's description of the whole export: a title header, a blank
line, then each panel's block in array order, the blocks' lines joined by
newlines. -/
def specExportText (title : String) (panels : List PanelRec) : String :=
  "# " ++ title ++ "\n\n" ++ joinSep "\n" (panels.flatMap specBlockLines)

/-- A line carries a given marker when it starts with it. -/
def startsWithMarker (marker line : String) : Bool :=
  headOccurs marker.data line.data

/-- Some line of the list carries the marker. -/
def hasLineWith (marker : String) (ls : List String) : Bool :=
  ls.any (startsWithMarker marker)

/-! ## Pipeline data model

Modelled from the spec: the backend pipeline (`server.py`) is not among the
visible sources, so the data model of spec section 3 is embedded from the
specification's words.  Image bytes are `List Nat`; the Comic's
`aspectRatio` field is embedded as `aspectFmt`. -/

structure DraftPanel where
  index : Nat
  scene : String
  dialogue : String
  characterActions : Option String
  mood : Option String
deriving Repr, DecidableEq

structure Character where
  name : String
  referenceImage : List Nat
deriving Repr, DecidableEq

inductive GenerationError where
  | moderationRejected
  | quotaExceeded
  | timedOut
  | networkError
  | malformedResponse
deriving Repr, DecidableEq

inductive PanelError where
  | generation (e : GenerationError)
  | compression
deriving Repr, DecidableEq

structure GenerationRequest where
  panelIndex : Nat
  positivePrompt : String
  negativePrompt : String
  width : Nat
  height : Nat
  guidanceScale : Nat
  steps : Nat
  referenceImage : Option (List Nat)
  referenceStrength : Option Nat
deriving Repr, DecidableEq

structure PanelResult where
  index : Nat
  image : Option (List Nat)
  error : Option PanelError
deriving Repr, DecidableEq

structure AssembledPanel where
  index : Nat
  scene : String
  dialogue : String
  characterActions : Option String
  mood : Option String
  image : Option (List Nat)
deriving Repr, DecidableEq

structure Comic where
  title : String
  style : String
  aspectFmt : String
  storyText : String
  panels : List AssembledPanel
deriving Repr, DecidableEq

inductive PipelineError where
  | emptyStory
deriving Repr, DecidableEq

/-! ## StoryParser

Modelled from the spec (section 4.1): the StoryParser implementation lives in
the backend `server.py`, which is not among the visible sources.  The model
segments the narrative at sentence boundaries, splits at clause boundaries
when there are fewer than `minPanels` units, merges trailing excess units
into the final panel to respect `maxPanels`, and derives per-unit dialogue
(quoted substrings), scene (remaining prose, capped in length), mood (a
fixed emotion vocabulary with a neutral default) and character actions (a
fixed motion-verb vocabulary). -/

structure ParserConfig where
  minPanels : Nat
  maxPanels : Nat
deriving Repr, DecidableEq

/-- Split a character list at every occurrence of `sep`. -/
def splitOnChar (sep : Char) : List Char → List (List Char)
  | [] => [[]]
  | c :: t =>
    match splitOnChar sep t with
    | [] => [[c]]
    | h :: r => if c == sep then [] :: h :: r else (c :: h) :: r

/-- The non-empty trimmed segments of `s` between occurrences of `sep`. -/
def pieces (sep : Char) (s : String) : List String :=
  ((((splitOnChar sep s.data).map trimChars).filter (fun u => !u.isEmpty)).map String.mk)

def sentenceUnits (text : String) : List String := pieces '.' text

def clauseUnits (u : String) : List String := pieces ',' u

def narrativeUnits (cfg : ParserConfig) (text : String) : List String :=
  let base := sentenceUnits text
  if base.length < cfg.minPanels then base.flatMap clauseUnits else base

def joinUnits (units : List String) : String := joinSep " " units

/-- Merge trailing excess units into the final panel when over `maxP`. -/
def mergeOverflow (maxP : Nat) (units : List String) : List String :=
  if units.length ≤ maxP then units
  else units.take (maxP - 1) ++ [joinUnits (units.drop (maxP - 1))]

def oddSlots {α : Type} : List α → List α
  | [] => []
  | [_] => []
  | _ :: b :: rest => b :: oddSlots rest

def evenSlots {α : Type} : List α → List α
  | [] => []
  | [a] => [a]
  | a :: _ :: rest => a :: evenSlots rest

/-- The quoted substrings of a unit, in order. -/
def quotedParts (u : String) : List String :=
  (oddSlots (splitOnChar '"' u.data)).map String.mk

/-- The prose of a unit outside all quotes. -/
def proseParts (u : String) : List String :=
  (((evenSlots (splitOnChar '"' u.data)).map trimChars).filter
    (fun l => !l.isEmpty)).map String.mk

/-- Hard cap on scene text for run-on sentences (spec section 4.1 edge case). -/
def sceneCap : Nat := 280

def extractDialogue (u : String) : String := joinSep " " (quotedParts u)

def extractScene (u : String) : String :=
  String.mk ((joinSep " " (proseParts u)).data.take sceneCap)

def moodVocab : List String :=
  ["happy", "sad", "angry", "scared", "excited", "calm", "mysterious"]

def detectMood (u : String) : String :=
  (moodVocab.find? (fun w => strIncludes (strToLower u) w)).getD "neutral"

def motionVerbs : List String :=
  ["runs", "jumps", "walks", "climbs", "flies", "grabs", "steps", "reaches"]

def detectActions (u : String) : Option String :=
  match motionVerbs.filter (fun w => strIncludes (strToLower u) w) with
  | [] => none
  | ws => some (joinSep " " ws)

def mkDraftPanel (i : Nat) (u : String) : DraftPanel :=
  { index := i, scene := extractScene u, dialogue := extractDialogue u,
    characterActions := detectActions u, mood := some (detectMood u) }

/-- Number the units 1-based, densely and contiguously, starting at the given number. -/
def indexPanels : Nat → List String → List DraftPanel
  | _, [] => []
  | i, u :: rest => mkDraftPanel i u :: indexPanels (i + 1) rest

/-- Modelled from the spec: `StoryParser` (section 4.1); rejects
empty/whitespace-only stories with `EmptyStoryError` and otherwise yields
the indexed draft-panel sequence. -/
def storyParser (cfg : ParserConfig) (text : String) :
    Except PipelineError (List DraftPanel) :=
  if strTrim text = "" then .error .emptyStory
  else .ok (indexPanels 1 (mergeOverflow cfg.maxPanels (narrativeUnits cfg text)))

/-! ## PromptEnhancer

Modelled from the spec (section 4.2): deterministic construction of the
generation request — fixed-order positive-prompt concatenation (style
template, scene, mood, a mystical-motif injection when the scene has no
motif term, tagged-character descriptors), a fixed non-configurable negative
safety list, geometry and strength parameters derived only from the
configuration, and a fixed reference strength for tagged characters with a
reference image.  The `entropy` argument stands for whatever ambient
randomness a run could observe; determinism is the statement that the
output never depends on it. -/

structure ComicConfig where
  style : String
  aspectFmt : String
deriving Repr, DecidableEq

def styleTemplate (style : String) : String :=
  "Mystical watercolor comic panel, " ++ style ++ " art style: "

def motifVocab : List String :=
  ["lunar", "moon", "crystal", "candle", "tarot", "sigil", "rune"]

def defaultMotif : String := "crystal"

def motifInjection (scene : String) : String :=
  if motifVocab.any (fun m => strIncludes (strToLower scene) m) then ""
  else ", glowing " ++ defaultMotif ++ " motif"

/-- The panel text in which known character names are looked for. -/
def draftPanelText (p : DraftPanel) : String :=
  p.dialogue ++ " " ++ optText p.characterActions

/-- A panel is associated with a known character when that character's name
appears (case-insensitively) in its dialogue or actions text. -/
def taggedCharacters (p : DraftPanel) (chars : List Character) : List Character :=
  chars.filter (fun c => strIncludes (strToLower (draftPanelText p)) (strToLower c.name))

def characterDescriptor (c : Character) : String :=
  ", " ++ c.name ++ " in modest mystical attire, fully covered"

/-- The fixed, non-negotiable brand-safety negative list (spec section 4.2). -/
def negativeSafetyList : List String :=
  ["nsfw", "nude", "revealing clothing", "cleavage", "suggestive pose",
   "explicit", "violence", "gore"]

def fixedNegativePrompt : String := joinSep ", " negativeSafetyList

/-- Geometry derived purely from the aspect-ratio configuration. -/
def geometryFor (aspectFmt : String) : Nat × Nat :=
  if aspectFmt = "16:9" then (1216, 832)
  else if aspectFmt = "1:1" then (1024, 1024)
  else (896, 1152)

/-- Fixed reference strength, in percent, inside the spec's [0.6, 0.85]. -/
def fixedReferenceStrength : Nat := 75

/-- Modelled from the spec: `PromptEnhancer` (section 4.2). -/
def enhancePrompt (entropy : Nat) (p : DraftPanel) (cfg : ComicConfig)
    (chars : List Character) : GenerationRequest :=
  let _ := entropy
  let tagged := taggedCharacters p chars
  { panelIndex := p.index
    positivePrompt :=
      styleTemplate cfg.style ++ p.scene ++
      (match p.mood with | some m => ", mood: " ++ m | none => "") ++
      motifInjection p.scene ++
      String.join (tagged.map characterDescriptor)
    negativePrompt := fixedNegativePrompt
    width := (geometryFor cfg.aspectFmt).1
    height := (geometryFor cfg.aspectFmt).2
    guidanceScale := 15
    steps := 35
    referenceImage := (tagged.head?).map Character.referenceImage
    referenceStrength := (tagged.head?).map (fun _ => fixedReferenceStrength) }

/-- Byte serialization of a generation request, to state byte-identity. -/
def serializeStr (s : String) : List Nat := s.data.map Char.toNat

/-- Byte serialization of a generation request. -/
def serializeRequest (r : GenerationRequest) : List Nat :=
  serializeStr r.positivePrompt ++ serializeStr r.negativePrompt ++
  [r.panelIndex, r.width, r.height, r.guidanceScale, r.steps] ++
  r.referenceImage.getD [] ++ [r.referenceStrength.getD 0]

/-! ## ImageGenerationAdapter

Modelled from the spec (section 4.3): one outbound request per attempt,
classified into a typed `PanelResult`; `Timeout`/`NetworkError` retried
exactly once with unchanged parameters, every other outcome terminal; the
adapter never raises.  The external service is an oracle
`Service : panel index → attempt number → outcome`. -/

inductive ServiceOutcome where
  | success (raw : List Nat)
  | moderationRejected
  | quotaExceeded
  | timedOut
  | networkFailure
  | malformedResponse
deriving Repr, DecidableEq

abbrev Service := Nat → Nat → ServiceOutcome

def classifyTerminal (i : Nat) (o : ServiceOutcome) : PanelResult :=
  match o with
  | .success raw => { index := i, image := some raw, error := none }
  | .moderationRejected =>
      { index := i, image := none, error := some (.generation .moderationRejected) }
  | .quotaExceeded =>
      { index := i, image := none, error := some (.generation .quotaExceeded) }
  | .timedOut =>
      { index := i, image := none, error := some (.generation .timedOut) }
  | .networkFailure =>
      { index := i, image := none, error := some (.generation .networkError) }
  | .malformedResponse =>
      { index := i, image := none, error := some (.generation .malformedResponse) }

/-- Modelled from the spec: `ImageGenerationAdapter` (section 4.3).  Returns
the typed result together with the number of outbound calls made. -/
def imageGenerationAdapter (service : Service) (req : GenerationRequest) :
    PanelResult × Nat :=
  match service req.panelIndex 0 with
  | .timedOut => (classifyTerminal req.panelIndex (service req.panelIndex 1), 2)
  | .networkFailure => (classifyTerminal req.panelIndex (service req.panelIndex 1), 2)
  | o => (classifyTerminal req.panelIndex o, 1)

/-! ## ImageNormalizer

Modelled from the spec (section 4.4): iteratively re-encode at the
decreasing quality levels of the schedule until the byte size is at or
below the ceiling, failing with `CompressionError` when the schedule is
exhausted.  Re-encoding at quality `q` percent is modelled as keeping the
proportional prefix of the raw bytes. -/

structure NormalizerConfig where
  ceiling : Nat
  qualitySchedule : List Nat
deriving Repr, DecidableEq

inductive CompressionError where
  | unattainable
deriving Repr, DecidableEq

def encodeAt (raw : List Nat) (quality : Nat) : List Nat :=
  raw.take (raw.length * quality / 100)

def normalizeLoop (ceiling : Nat) (raw : List Nat) :
    List Nat → Except CompressionError (List Nat)
  | [] => .error .unattainable
  | q :: qs =>
    if (encodeAt raw q).length ≤ ceiling then .ok (encodeAt raw q)
    else normalizeLoop ceiling raw qs

/-- Modelled from the spec: `ImageNormalizer` (section 4.4). -/
def imageNormalizer (ncfg : NormalizerConfig) (raw : List Nat) :
    Except CompressionError (List Nat) :=
  normalizeLoop ncfg.ceiling raw ncfg.qualitySchedule

/-- Normalize a successful panel result; a `CompressionError` is recorded
like a generation failure (spec section 7), with the image left unset. -/
def normalizePanelResult (ncfg : NormalizerConfig) (r : PanelResult × Nat) :
    PanelResult × Nat :=
  match r.1.image with
  | some raw =>
    match imageNormalizer ncfg raw with
    | .ok encoded => ({ index := r.1.index, image := some encoded, error := none }, r.2)
    | .error _ => ({ index := r.1.index, image := none, error := some .compression }, r.2)
  | none => r

/-- One panel's generation-and-normalization attempt. -/
def generatePanel (service : Service) (ncfg : NormalizerConfig)
    (req : GenerationRequest) : PanelResult × Nat :=
  normalizePanelResult ncfg (imageGenerationAdapter service req)

/-! ## ComicAssembler and the pipeline entry point

Modelled from the spec (sections 4.5 and 6): every draft panel appears
exactly once in the final sequence, in index order; panels whose generation
failed or was skipped carry no image but are otherwise complete;
`generateImages = false` skips generation and normalization entirely. -/

def panelImageFor (results : List PanelResult) (i : Nat) : Option (List Nat) :=
  match results.find? (fun r => r.index == i) with
  | some r => r.image
  | none => none

def attachResult (results : List PanelResult) (d : DraftPanel) : AssembledPanel :=
  { index := d.index, scene := d.scene, dialogue := d.dialogue,
    characterActions := d.characterActions, mood := d.mood,
    image := panelImageFor results d.index }

/-- Modelled from the spec: `ComicAssembler` (section 4.5). -/
def assembleComic (title style aspectFmt storyText : String)
    (drafts : List DraftPanel) (results : List PanelResult) : Comic :=
  { title := title, style := style, aspectFmt := aspectFmt,
    storyText := storyText, panels := drafts.map (attachResult results) }

/-- The panel result the pipeline computes for one draft panel. -/
def panelResultOf (s : Service) (ncfg : NormalizerConfig) (entropy : Nat)
    (style aspectFmt : String) (chars : List Character) (d : DraftPanel) :
    PanelResult :=
  (generatePanel s ncfg (enhancePrompt entropy d ⟨style, aspectFmt⟩ chars)).1

/-- The image-independent content of an assembled panel. -/
def panelContent (p : AssembledPanel) :
    Nat × String × String × Option String × Option String :=
  (p.index, p.scene, p.dialogue, p.characterActions, p.mood)

/-- Modelled from the spec: `createComic` (section 6), the full pipeline
entry point.  Returns the outcome together with the number of outbound
generation calls made. -/
def createComicPipeline (pcfg : ParserConfig) (ncfg : NormalizerConfig)
    (chars : List Character) (service : Service) (entropy : Nat)
    (story title style aspectFmt : String) (generateImages : Bool) :
    Except PipelineError Comic × Nat :=
  match storyParser pcfg story with
  | .error e => (.error e, 0)
  | .ok drafts =>
    if generateImages then
      let attempts := drafts.map (fun d =>
        generatePanel service ncfg (enhancePrompt entropy d ⟨style, aspectFmt⟩ chars))
      (.ok (assembleComic title style aspectFmt story drafts (attempts.map Prod.fst)),
       (attempts.map Prod.snd).sum)
    else
      (.ok (assembleComic title style aspectFmt story drafts []), 0)

/-! ## Concrete inputs used by the witnesses and the counterexample -/

/-- The counterexample input for claim C9: dialogue "jam", actions "ie". -/
def c9Panel : PanelRec :=
  { panel := 1, scene := "s", dialogue := "jam", character_actions := some "ie",
    mood := none }

def c3Chars : List StoredCharacter := [{ name := "Jamie", image_base64 := "IMG" }]

def c7Cfg : NormalizerConfig := ⟨300000, [90, 80, 70, 60, 50, 40, 30, 20, 10]⟩

def c7Raw : List Nat := List.replicate 2200000 7

def okOr (e : Except PipelineError Comic) (d : Comic) : Comic :=
  match e with
  | .ok c => c
  | .error _ => d

def c8Service : Service := fun _ _ => .success [1, 2, 3]

def c8Run : Except PipelineError Comic × Nat :=
  createComicPipeline ⟨3, 8⟩ ⟨300000, [90]⟩ [] c8Service 0 "Aa. Bb. Cc." "T"
    "S" "4:5" false

def c8RunT : Except PipelineError Comic × Nat :=
  createComicPipeline ⟨3, 8⟩ ⟨300000, [90]⟩ [] c8Service 0 "Aa. Bb. Cc." "T"
    "S" "4:5" true

def c8Comic : Comic := okOr c8Run.1 ⟨"", "", "", "", []⟩

def c8ComicT : Comic := okOr c8RunT.1 ⟨"", "", "", "", []⟩

def c2Fail : Service := fun j _ =>
  if j = 2 then .moderationRejected else .success [1, 2, 3]

def c2Succeed : Service := fun _ _ => .success [1, 2, 3]

def c2Run₁ : Except PipelineError Comic × Nat :=
  createComicPipeline ⟨3, 8⟩ ⟨300000, [90]⟩ [] c2Fail 0 "Aa. Bb. Cc. Dd." "T"
    "S" "4:5" true

def c2Run₂ : Except PipelineError Comic × Nat :=
  createComicPipeline ⟨3, 8⟩ ⟨300000, [90]⟩ [] c2Succeed 0 "Aa. Bb. Cc. Dd."
    "T" "S" "4:5" true

def c2Comic₁ : Comic := okOr c2Run₁.1 ⟨"", "", "", "", []⟩

def c2Comic₂ : Comic := okOr c2Run₂.1 ⟨"", "", "", "", []⟩

/-! ## Theorems -/

theorem strData_append (a b : String) : (a ++ b).data = a.data ++ b.data := by
  cases a; cases b; rfl

theorem stringEq_of_data {a b : String} (h : a.data = b.data) : a = b := by
  cases a; cases b; exact congrArg String.mk h

theorem strAppend_assoc (a b c : String) : a ++ b ++ c = a ++ (b ++ c) := by
  apply stringEq_of_data; simp [strData_append]

theorem strAppend_empty (a : String) : a ++ "" = a := by
  apply stringEq_of_data
  simp [strData_append, show ("" : String).data = [] from rfl]

theorem headOccurs_append_space {needle : List Char} (d a : List Char)
    (hs : ' ' ∉ needle) : headOccurs needle (d ++ ' ' :: a) = headOccurs needle d := by
  induction needle generalizing d with
  | nil => rfl
  | cons n ns ih =>
    cases d with
    | nil =>
      have hn : n ≠ ' ' := fun h => hs (h ▸ List.mem_cons_self n ns)
      simp [headOccurs, hn]
    | cons c d' =>
      have hs' : ' ' ∉ ns := fun h => hs (List.mem_cons_of_mem _ h)
      show (n == c && headOccurs ns (d' ++ ' ' :: a)) = (n == c && headOccurs ns d')
      rw [ih d' hs']

theorem containsChars_append_space {needle : List Char} (d a : List Char)
    (hne : needle ≠ []) (hs : ' ' ∉ needle) :
    containsChars needle (d ++ ' ' :: a) =
      (containsChars needle d || containsChars needle a) := by
  induction d with
  | nil =>
    cases needle with
    | nil => exact absurd rfl hne
    | cons n ns =>
      have hn : n ≠ ' ' := fun h => hs (h ▸ List.mem_cons_self n ns)
      simp [containsChars, headOccurs, hn, List.isEmpty]
  | cons c d' ih =>
    show (headOccurs needle ((c :: d') ++ ' ' :: a) || containsChars needle (d' ++ ' ' :: a)) =
      ((headOccurs needle (c :: d') || containsChars needle d') || containsChars needle a)
    rw [headOccurs_append_space (c :: d') a hs, ih, Bool.or_assoc]

theorem strIncludes_space_join (d a nm : String) (hne : nm.data ≠ [])
    (hs : ' ' ∉ nm.data) :
    strIncludes (strToLower (d ++ " " ++ a)) nm =
      (strIncludes (strToLower d) nm || strIncludes (strToLower a) nm) := by
  have hdata : (d ++ " " ++ a).data = d.data ++ ' ' :: a.data := by
    simp [strData_append, show (" " : String).data = [' '] from rfl]
  have hlower : lowerChars (d.data ++ ' ' :: a.data) =
      lowerChars d.data ++ ' ' :: lowerChars a.data := by
    simp [lowerChars, show Char.toLower ' ' = ' ' from by decide]
  simp only [strIncludes, strToLower, hdata, hlower]
  exact containsChars_append_space _ _ hne hs

theorem optTruthy_eq (o : Option String) : optTruthy o = (optText o != "") := by
  cases o with
  | none => rfl
  | some s => rfl

theorem strIncludes_empty (nm : String) (h : nm.data ≠ []) :
    strIncludes (strToLower "") nm = false := by
  simp only [strIncludes, strToLower]
  cases hd : nm.data with
  | nil => exact absurd hd h
  | cons c t => rfl

/-- Claim C9 (amended): panel character tagging in both viewer components
recognizes exactly the fixed names jamie and kylee, by case-insensitive
substring containment in the dialogue or in the characterActions text taken
separately - equivalently, in the space-separated join the code builds; a
name split across the dialogue/actions boundary is not tagged, which is the
one correction the counterexample forces on the claim as stated. -/
theorem viewer_tags_amended (p : PanelRec) :
    comicPanelTags p = claimTagsSeparate p ∧
    enhancedViewerTags p = claimTagsSeparate p := by
  constructor
  · unfold comicPanelTags getCharacterTags claimTagsSeparate
    rw [strIncludes_space_join _ _ "jamie" (by decide) (by decide),
        strIncludes_space_join _ _ "kylee" (by decide) (by decide)]
  · unfold enhancedViewerTags claimTagsSeparate
    cases hca : p.character_actions with
    | none =>
      simp [optTruthy, optText,
        strIncludes_empty "jamie" (by decide), strIncludes_empty "kylee" (by decide)]
    | some s =>
      by_cases hs : s = ""
      · subst hs
        simp [optTruthy, optText,
          strIncludes_empty "jamie" (by decide), strIncludes_empty "kylee" (by decide)]
      · simp [optTruthy, optText, hs]

/-- Claim C9 counterexample: with dialogue "jam" and characterActions "ie",
containment in the plain concatenation (the claim as stated) tags jamie, but
the code, which joins the two fields with a space, tags nothing. -/
theorem c9_counterexample :
    comicPanelTags c9Panel = [] ∧
    claimTagsConcat c9Panel = ["jamie"] ∧
    comicPanelTags c9Panel ≠ claimTagsConcat c9Panel := by
  refine ⟨by decide, by decide, by decide⟩

theorem headOccurs_self_append (l x : List Char) : headOccurs l (l ++ x) = true := by
  induction l with
  | nil => rfl
  | cons c cs ih => simp [headOccurs, ih]

theorem headOccurs_take_false {m pre x : List Char} {k : Nat}
    (h : headOccurs (m.take k) (pre.take k) = false) (hl : k ≤ pre.length) :
    headOccurs m (pre ++ x) = false := by
  induction k generalizing m pre with
  | zero => simp [List.take, headOccurs] at h
  | succ k ih =>
    cases m with
    | nil => simp [List.take, headOccurs] at h
    | cons a as =>
      cases pre with
      | nil => simp at hl
      | cons b bs =>
        show (a == b && headOccurs as (bs ++ x)) = false
        cases hab : a == b with
        | false => simp
        | true =>
          simp only [List.take, headOccurs, hab, Bool.true_and] at h
          simp only [Bool.true_and]
          exact ih h (Nat.le_of_succ_le_succ hl)

theorem startsWithMarker_append_true (m x : String) :
    startsWithMarker m (m ++ x) = true := by
  unfold startsWithMarker
  rw [strData_append]
  exact headOccurs_self_append _ _

theorem startsWithMarker_append_false (m pre x : String)
    (h : headOccurs (m.data.take 3) (pre.data.take 3) = false)
    (hl : 3 ≤ pre.data.length) :
    startsWithMarker m (pre ++ x) = false := by
  unfold startsWithMarker
  rw [strData_append]
  exact headOccurs_take_false h hl

theorem joinSep_append (sep : String) (xs ys : List String)
    (hx : xs ≠ []) (hy : ys ≠ []) :
    joinSep sep (xs ++ ys) = joinSep sep xs ++ sep ++ joinSep sep ys := by
  induction xs with
  | nil => exact absurd rfl hx
  | cons x xs ih =>
    cases xs with
    | nil =>
      cases ys with
      | nil => exact absurd rfl hy
      | cons y ys' => rfl
    | cons x' xs' =>
      show x ++ sep ++ joinSep sep ((x' :: xs') ++ ys) =
        (x ++ sep ++ joinSep sep (x' :: xs')) ++ sep ++ joinSep sep ys
      rw [ih (by simp)]
      simp [strAppend_assoc]

theorem specBlockLines_ne_nil (p : PanelRec) : specBlockLines p ≠ [] := by
  unfold specBlockLines
  cases (optText p.character_actions != "") <;>
    cases (optText p.mood != "") <;> simp

theorem panelBlock_eq_joined (p : PanelRec) :
    panelBlock p = joinSep "\n" (specBlockLines p) := by
  unfold panelBlock specBlockLines
  rw [optTruthy_eq p.character_actions, optTruthy_eq p.mood]
  have hsc : ("\n**Scene:** " : String).data = '\n' :: ("**Scene:** " : String).data := rfl
  have hnl : ("\n" : String).data = ['\n'] := rfl
  have hemp : ("" : String).data = [] := rfl
  cases hca : (optText p.character_actions != "") <;>
    cases hm : (optText p.mood != "") <;>
    · simp only [if_true, if_false, Bool.false_eq_true, List.append_nil,
        List.nil_append, List.cons_append, joinSep]
      apply stringEq_of_data
      simp [strData_append, hsc, hnl, hemp, List.append_assoc]

theorem flatMap_blocks_ne_nil (q : PanelRec) (qs : List PanelRec) :
    (q :: qs).flatMap specBlockLines ≠ [] := by
  intro h
  rw [List.flatMap_cons] at h
  exact specBlockLines_ne_nil q (List.append_eq_nil.mp h).1

theorem joined_blocks_eq (ps : List PanelRec) :
    joinSep "\n" (ps.map panelBlock) = joinSep "\n" (ps.flatMap specBlockLines) := by
  induction ps with
  | nil => rfl
  | cons p ps ih =>
    cases ps with
    | nil =>
      show panelBlock p = joinSep "\n" ([p].flatMap specBlockLines)
      rw [show [p].flatMap specBlockLines = specBlockLines p from by simp]
      exact panelBlock_eq_joined p
    | cons q qs =>
      show panelBlock p ++ "\n" ++ joinSep "\n" ((q :: qs).map panelBlock) = _
      conv_rhs => rw [List.flatMap_cons]
      rw [joinSep_append "\n" _ _ (specBlockLines_ne_nil p) (flatMap_blocks_ne_nil q qs),
        panelBlock_eq_joined p, ih]

theorem hasScene_line (p : PanelRec) :
    hasLineWith "**Scene:** " (specBlockLines p) = true := by
  unfold specBlockLines hasLineWith
  cases (optText p.character_actions != "") <;>
    cases (optText p.mood != "") <;>
    simp [startsWithMarker_append_true]

theorem hasDialogue_line (p : PanelRec) :
    hasLineWith "**Dialogue:** " (specBlockLines p) = true := by
  unfold specBlockLines hasLineWith
  cases (optText p.character_actions != "") <;>
    cases (optText p.mood != "") <;>
    simp [startsWithMarker_append_true]

theorem hasActions_line_iff (p : PanelRec) :
    hasLineWith "**Actions:** " (specBlockLines p) =
      (optText p.character_actions != "") := by
  have h1 : startsWithMarker "**Actions:** " ("## Panel " ++ toString p.panel) = false :=
    startsWithMarker_append_false _ _ _ (by decide) (by decide)
  have h2 : startsWithMarker "**Actions:** " ("**Scene:** " ++ p.scene) = false :=
    startsWithMarker_append_false _ _ _ (by decide) (by decide)
  have h3 : startsWithMarker "**Actions:** " ("**Mood:** " ++ optText p.mood) = false :=
    startsWithMarker_append_false _ _ _ (by decide) (by decide)
  have h4 : startsWithMarker "**Actions:** " ("**Dialogue:** " ++ p.dialogue) = false :=
    startsWithMarker_append_false _ _ _ (by decide) (by decide)
  have h5 : startsWithMarker "**Actions:** " "" = false := by decide
  unfold specBlockLines hasLineWith
  cases hca : (optText p.character_actions != "") <;>
    cases hm : (optText p.mood != "") <;>
    simp [h1, h2, h3, h4, h5, startsWithMarker_append_true]

theorem hasMood_line_iff (p : PanelRec) :
    hasLineWith "**Mood:** " (specBlockLines p) = (optText p.mood != "") := by
  have h1 : startsWithMarker "**Mood:** " ("## Panel " ++ toString p.panel) = false :=
    startsWithMarker_append_false _ _ _ (by decide) (by decide)
  have h2 : startsWithMarker "**Mood:** " ("**Scene:** " ++ p.scene) = false :=
    startsWithMarker_append_false _ _ _ (by decide) (by decide)
  have h3 : startsWithMarker "**Mood:** " ("**Actions:** " ++ optText p.character_actions) = false :=
    startsWithMarker_append_false _ _ _ (by decide) (by decide)
  have h4 : startsWithMarker "**Mood:** " ("**Dialogue:** " ++ p.dialogue) = false :=
    startsWithMarker_append_false _ _ _ (by decide) (by decide)
  have h5 : startsWithMarker "**Mood:** " "" = false := by decide
  unfold specBlockLines hasLineWith
  cases hca : (optText p.character_actions != "") <;>
    cases hm : (optText p.mood != "") <;>
    simp [h1, h2, h3, h4, h5, startsWithMarker_append_true]

theorem exportMarkdown_eq_spec (title : String) (panels : List PanelRec) :
    exportMarkdown title panels = specExportText title panels := by
  unfold exportMarkdown specExportText
  rw [joined_blocks_eq]

/-- Claim C10: the markdown export is a pure function of the title and the
panel sequence: a title header followed by one block per panel in array
order, where every block carries a Scene line and a Dialogue line, an
Actions line exactly when character_actions is non-empty, and a Mood line
exactly when mood is non-empty. -/
theorem markdown_export_spec :
    (∀ (title : String) (panels : List PanelRec),
       exportMarkdown title panels = specExportText title panels) ∧
    (∀ p : PanelRec,
       hasLineWith "**Scene:** " (specBlockLines p) = true ∧
       hasLineWith "**Dialogue:** " (specBlockLines p) = true ∧
       hasLineWith "**Actions:** " (specBlockLines p) =
         (optText p.character_actions != "") ∧
       hasLineWith "**Mood:** " (specBlockLines p) = (optText p.mood != "")) :=
  ⟨exportMarkdown_eq_spec, fun p =>
    ⟨hasScene_line p, hasDialogue_line p, hasActions_line_iff p,
     hasMood_line_iff p⟩⟩

/-- Claim C3: character lookup matches the stored character set by
case-insensitive exact-name comparison, and a name with no match yields
none (no reference), never an error. -/
theorem character_lookup_spec :
    (∀ (chars : List StoredCharacter) (n₁ n₂ : String),
       strToLower n₁ = strToLower n₂ →
       getCharacterImage chars n₁ = getCharacterImage chars n₂) ∧
    (∀ (chars : List StoredCharacter) (n img : String),
       getCharacterImage chars n = some img →
       ∃ c ∈ chars, strToLower c.name = strToLower n) ∧
    (∀ (chars : List StoredCharacter) (n : String),
       (∀ c ∈ chars, strToLower c.name ≠ strToLower n) →
       getCharacterImage chars n = none) := by
  refine ⟨?_, ?_, ?_⟩
  · intro chars n₁ n₂ h
    unfold getCharacterImage
    rw [h]
  · intro chars n img h
    unfold getCharacterImage at h
    cases hf : chars.find? (fun c => strToLower c.name == strToLower n) with
    | none => rw [hf] at h; exact absurd h (by simp)
    | some c =>
      refine ⟨c, List.mem_of_find?_eq_some hf, ?_⟩
      have hp := List.find?_some hf
      exact eq_of_beq hp
  · intro chars n h
    unfold getCharacterImage
    rw [List.find?_eq_none.mpr ?_]
    intro c hc
    simpa using h c hc

theorem character_lookup_witness :
    getCharacterImage c3Chars "JAMIE" = getCharacterImage c3Chars "jamie" ∧
    getCharacterImage c3Chars "zara" = none :=
  ⟨character_lookup_spec.1 c3Chars "JAMIE" "jamie" (by decide),
   character_lookup_spec.2.2 c3Chars "zara" (by decide)⟩

/-- Claim C4: an empty or whitespace-only story is rejected before any
generation work: both submit handlers refuse to submit, and the pipeline
fails with EmptyStoryError, producing no panels and making zero outbound
generation calls. -/
theorem empty_story_rejected :
    (∀ (story title style aspectFmt : String) (generateImages : Bool),
       strTrim story = "" →
       handleSubmit story title style aspectFmt generateImages = none) ∧
    (∀ (story title : String), strTrim story = "" →
       handleSubmitBasic story title = none) ∧
    (∀ (pcfg : ParserConfig) (ncfg : NormalizerConfig) (chars : List Character)
       (service : Service) (entropy : Nat)
       (story title style aspectFmt : String) (generateImages : Bool),
       strTrim story = "" →
       createComicPipeline pcfg ncfg chars service entropy story title style
         aspectFmt generateImages = (.error .emptyStory, 0)) := by
  refine ⟨?_, ?_, ?_⟩
  · intro story _ _ _ _ h
    unfold handleSubmit
    rw [if_pos h]
  · intro story _ h
    unfold handleSubmitBasic
    rw [if_pos h]
  · intro pcfg ncfg chars service entropy story title style aspectFmt gi h
    unfold createComicPipeline storyParser
    rw [if_pos h]

theorem empty_story_rejected_witness :
    handleSubmit "   " "T" "S" "4:5" true = none ∧
    handleSubmitBasic "  " "T" = none ∧
    createComicPipeline ⟨3, 8⟩ ⟨300000, [90]⟩ [] (fun _ _ => .success []) 0
      " \t " "T" "S" "4:5" true = (.error .emptyStory, 0) :=
  ⟨empty_story_rejected.1 "   " "T" "S" "4:5" true (by decide),
   empty_story_rejected.2.1 "  " "T" (by decide),
   empty_story_rejected.2.2 ⟨3, 8⟩ ⟨300000, [90]⟩ [] (fun _ _ => .success []) 0
     " \t " "T" "S" "4:5" true (by decide)⟩

/-- Claim C5: PromptEnhancer is deterministic: two runs on the same
DraftPanel with the same configuration and character set produce equal,
byte-identical GenerationRequests, whatever ambient entropy each run
observes. -/
theorem prompt_enhancer_deterministic :
    ∀ (e₁ e₂ : Nat) (p : DraftPanel) (cfg : ComicConfig) (chars : List Character),
      enhancePrompt e₁ p cfg chars = enhancePrompt e₂ p cfg chars ∧
      serializeRequest (enhancePrompt e₁ p cfg chars) =
        serializeRequest (enhancePrompt e₂ p cfg chars) :=
  fun _ _ _ _ _ => ⟨rfl, rfl⟩

/-- Claim C6: the negative prompt of every GenerationRequest is the one
fixed, non-empty safety list, independent of the panel, the configuration
and the character set - hence present and identical across all panels of a
comic and not user-configurable. -/
theorem negative_prompt_fixed :
    (∀ (e : Nat) (p : DraftPanel) (cfg : ComicConfig) (chars : List Character),
       (enhancePrompt e p cfg chars).negativePrompt = fixedNegativePrompt) ∧
    fixedNegativePrompt ≠ "" ∧
    (∀ (e₁ e₂ : Nat) (p₁ p₂ : DraftPanel) (cfg₁ cfg₂ : ComicConfig)
       (chars₁ chars₂ : List Character),
       (enhancePrompt e₁ p₁ cfg₁ chars₁).negativePrompt =
         (enhancePrompt e₂ p₂ cfg₂ chars₂).negativePrompt) :=
  ⟨fun _ _ _ _ => rfl, by decide, fun _ _ _ _ _ _ _ _ => rfl⟩

theorem encodeAt_length_mono (raw : List Nat) {q q' : Nat} (h : q' ≤ q) :
    (encodeAt raw q').length ≤ (encodeAt raw q).length := by
  unfold encodeAt
  rw [List.length_take, List.length_take]
  exact min_le_min (Nat.div_le_div_right (Nat.mul_le_mul_left _ h)) le_rfl

theorem normalizeLoop_ok_le {ceiling : Nat} {raw : List Nat} :
    ∀ {qs out : List Nat}, normalizeLoop ceiling raw qs = .ok out →
      out.length ≤ ceiling := by
  intro qs
  induction qs with
  | nil => intro out h; exact absurd h (by simp [normalizeLoop])
  | cons q qs ih =>
    intro out h
    unfold normalizeLoop at h
    by_cases hc : (encodeAt raw q).length ≤ ceiling
    · rw [if_pos hc] at h
      injection h with h'
      exact h' ▸ hc
    · rw [if_neg hc] at h
      exact ih h

theorem normalizeLoop_all_over {ceiling : Nat} {raw : List Nat} :
    ∀ {qs : List Nat}, (∀ q ∈ qs, ceiling < (encodeAt raw q).length) →
      normalizeLoop ceiling raw qs = .error .unattainable := by
  intro qs
  induction qs with
  | nil => intro _; rfl
  | cons q qs ih =>
    intro h
    unfold normalizeLoop
    rw [if_neg (by exact Nat.not_le_of_lt (h q (by simp)))]
    exact ih fun q' hq' => h q' (by simp [hq'])

/-- Claim C7: whenever ImageNormalizer succeeds, the returned bytes are at
or below the configured ceiling; the encoded size is monotonically
non-increasing as the quality level decreases; and when even the
minimum-quality floor stays over the ceiling, it returns CompressionError. -/
theorem image_normalizer_spec :
    (∀ (ncfg : NormalizerConfig) (raw out : List Nat),
       imageNormalizer ncfg raw = .ok out → out.length ≤ ncfg.ceiling) ∧
    (∀ (raw : List Nat) (q q' : Nat), q' ≤ q →
       (encodeAt raw q').length ≤ (encodeAt raw q).length) ∧
    (∀ (ncfg : NormalizerConfig) (raw : List Nat) (floorQ : Nat),
       (∀ q ∈ ncfg.qualitySchedule, floorQ ≤ q) →
       ncfg.ceiling < (encodeAt raw floorQ).length →
       imageNormalizer ncfg raw = .error .unattainable) := by
  refine ⟨?_, ?_, ?_⟩
  · intro ncfg raw out h
    exact normalizeLoop_ok_le h
  · intro raw q q' h
    exact encodeAt_length_mono raw h
  · intro ncfg raw floorQ hfloor hover
    exact normalizeLoop_all_over fun q hq =>
      Nat.lt_of_lt_of_le hover (encodeAt_length_mono raw (hfloor q hq))

theorem encodeAt_c7Raw (q : Nat) :
    encodeAt c7Raw q = List.replicate (min (2200000 * q / 100) 2200000) 7 := by
  unfold encodeAt c7Raw
  rw [List.length_replicate, List.take_replicate]

theorem encodeAt_c7Raw_length (q : Nat) :
    (encodeAt c7Raw q).length = min (2200000 * q / 100) 2200000 := by
  rw [encodeAt_c7Raw, List.length_replicate]

theorem image_normalizer_witness :
    imageNormalizer c7Cfg c7Raw = .ok (List.replicate 220000 7) ∧
    (List.replicate 220000 7).length ≤ c7Cfg.ceiling ∧
    imageNormalizer ⟨300000, [90, 80, 70]⟩ c7Raw = .error .unattainable := by
  have hstep : ∀ (qs : List Nat) (q : Nat), normalizeLoop 300000 c7Raw (q :: qs) =
      if (encodeAt c7Raw q).length ≤ 300000 then .ok (encodeAt c7Raw q)
      else normalizeLoop 300000 c7Raw qs := fun _ _ => rfl
  have hrun : imageNormalizer c7Cfg c7Raw = .ok (List.replicate 220000 7) := by
    show normalizeLoop 300000 c7Raw [90, 80, 70, 60, 50, 40, 30, 20, 10] = _
    rw [hstep]; rw [if_neg (by rw [encodeAt_c7Raw_length]; norm_num [Nat.min_def])]
    rw [hstep]; rw [if_neg (by rw [encodeAt_c7Raw_length]; norm_num [Nat.min_def])]
    rw [hstep]; rw [if_neg (by rw [encodeAt_c7Raw_length]; norm_num [Nat.min_def])]
    rw [hstep]; rw [if_neg (by rw [encodeAt_c7Raw_length]; norm_num [Nat.min_def])]
    rw [hstep]; rw [if_neg (by rw [encodeAt_c7Raw_length]; norm_num [Nat.min_def])]
    rw [hstep]; rw [if_neg (by rw [encodeAt_c7Raw_length]; norm_num [Nat.min_def])]
    rw [hstep]; rw [if_neg (by rw [encodeAt_c7Raw_length]; norm_num [Nat.min_def])]
    rw [hstep]; rw [if_neg (by rw [encodeAt_c7Raw_length]; norm_num [Nat.min_def])]
    rw [hstep]; rw [if_pos (by rw [encodeAt_c7Raw_length]; norm_num [Nat.min_def])]
    rw [encodeAt_c7Raw,
      show min (2200000 * 10 / 100) 2200000 = 220000 from by norm_num [Nat.min_def]]
  refine ⟨hrun, image_normalizer_spec.1 c7Cfg c7Raw _ hrun, ?_⟩
  exact image_normalizer_spec.2.2 ⟨300000, [90, 80, 70]⟩ c7Raw 70 (by decide)
    (by rw [encodeAt_c7Raw_length]; norm_num [Nat.min_def])

theorem indexPanels_length (i : Nat) (us : List String) :
    (indexPanels i us).length = us.length := by
  induction us generalizing i with
  | nil => rfl
  | cons u us ih => simp [indexPanels, ih]

theorem indexPanels_map_index (i : Nat) (us : List String) :
    (indexPanels i us).map DraftPanel.index = List.range' i us.length := by
  induction us generalizing i with
  | nil => rfl
  | cons u us ih =>
    show List.map DraftPanel.index (indexPanels i (u :: us)) =
      List.range' i (us.length + 1)
    rw [List.range'_succ]
    simp [indexPanels, mkDraftPanel, ih]

theorem mergeOverflow_length_le {maxP : Nat} (h1 : 1 ≤ maxP) (units : List String) :
    (mergeOverflow maxP units).length ≤ maxP := by
  unfold mergeOverflow
  by_cases h : units.length ≤ maxP
  · rw [if_pos h]; exact h
  · rw [if_neg h]
    rw [List.length_append, List.length_take]
    have hmin : min (maxP - 1) units.length = maxP - 1 :=
      min_eq_left (by omega)
    simp [hmin]
    omega

theorem mergeOverflow_length_ge {minP maxP : Nat} (h2 : minP ≤ maxP)
    (units : List String) (h : minP ≤ units.length) :
    minP ≤ (mergeOverflow maxP units).length := by
  unfold mergeOverflow
  by_cases hle : units.length ≤ maxP
  · rw [if_pos hle]; exact h
  · rw [if_neg hle]
    rw [List.length_append, List.length_take]
    have hmin : min (maxP - 1) units.length = maxP - 1 :=
      min_eq_left (by omega)
    simp [hmin]
    omega

theorem attached_map_index (rs : List PanelResult) (ds : List DraftPanel) :
    (ds.map (attachResult rs)).map AssembledPanel.index = ds.map DraftPanel.index := by
  rw [List.map_map]
  rfl

/-- Claim C1: for every story text of non-trivial length (one yielding at
least minPanels narrative units), StoryParser succeeds with a panel count N
between minPanels and maxPanels and panel indices exactly 1..N, dense and
contiguous; and any Comic the pipeline assembles from that story keeps all
N panels with those indices, regardless of image-generation outcomes. -/
theorem story_parser_panel_bounds :
    ∀ (cfg : ParserConfig) (ncfg : NormalizerConfig) (chars : List Character)
      (service : Service) (entropy : Nat)
      (text title style aspectFmt : String) (generateImages : Bool),
      1 ≤ cfg.minPanels → cfg.minPanels ≤ cfg.maxPanels →
      strTrim text ≠ "" →
      cfg.minPanels ≤ (narrativeUnits cfg text).length →
      ∃ panels, storyParser cfg text = .ok panels ∧
        cfg.minPanels ≤ panels.length ∧ panels.length ≤ cfg.maxPanels ∧
        panels.map DraftPanel.index = List.range' 1 panels.length ∧
        ∀ comic, (createComicPipeline cfg ncfg chars service entropy text title
            style aspectFmt generateImages).1 = .ok comic →
          comic.panels.length = panels.length ∧
          comic.panels.map AssembledPanel.index = List.range' 1 panels.length := by
  intro cfg ncfg chars service entropy text title style aspectFmt gi h1 h2 h3 h4
  have hsp : storyParser cfg text =
      .ok (indexPanels 1 (mergeOverflow cfg.maxPanels (narrativeUnits cfg text))) := by
    unfold storyParser
    rw [if_neg h3]
  refine ⟨_, hsp, ?_, ?_, ?_, ?_⟩
  · rw [indexPanels_length]
    exact mergeOverflow_length_ge h2 _ h4
  · rw [indexPanels_length]
    exact mergeOverflow_length_le (le_trans h1 h2) _
  · rw [indexPanels_map_index, indexPanels_length]
  · intro comic hc
    unfold createComicPipeline at hc
    rw [hsp] at hc
    cases gi with
    | true =>
      simp only [if_true] at hc
      injection hc with hc'
      subst hc'
      unfold assembleComic
      constructor
      · simp [indexPanels_length]
      · rw [attached_map_index, indexPanels_map_index, indexPanels_length]
    | false =>
      simp only [if_false, Bool.false_eq_true] at hc
      injection hc with hc'
      subst hc'
      unfold assembleComic
      constructor
      · simp [indexPanels_length]
      · rw [attached_map_index, indexPanels_map_index, indexPanels_length]

theorem story_parser_witness :
    ∃ panels, storyParser ⟨3, 8⟩ "Aa. Bb. Cc. Dd." = .ok panels ∧
      3 ≤ panels.length ∧ panels.length ≤ 8 ∧
      panels.map DraftPanel.index = List.range' 1 panels.length ∧
      ∀ comic, (createComicPipeline ⟨3, 8⟩ ⟨300000, [90]⟩ []
          (fun _ _ => .success [1, 2, 3]) 0 "Aa. Bb. Cc. Dd." "T" "S" "4:5"
          true).1 = .ok comic →
        comic.panels.length = panels.length ∧
        comic.panels.map AssembledPanel.index = List.range' 1 panels.length :=
  story_parser_panel_bounds ⟨3, 8⟩ ⟨300000, [90]⟩ []
    (fun _ _ => .success [1, 2, 3]) 0 "Aa. Bb. Cc. Dd." "T" "S" "4:5" true
    (by decide) (by decide) (by decide) (by decide)

/-- Claim C8: a run with generateImages set to false returns a Comic whose
every panel has no image, while each panel scene, dialogue, characterActions
and mood are identical to those of the run with generateImages true; the
frontend passes the flag through unchanged. -/
theorem generate_images_flag_spec :
    (∀ (pcfg : ParserConfig) (ncfg : NormalizerConfig) (chars : List Character)
       (service : Service) (entropy : Nat)
       (story title style aspectFmt : String) (comic : Comic),
       (createComicPipeline pcfg ncfg chars service entropy story title style
          aspectFmt false).1 = .ok comic →
       (∀ p ∈ comic.panels, p.image = none) ∧
       ∀ comicT, (createComicPipeline pcfg ncfg chars service entropy story
           title style aspectFmt true).1 = .ok comicT →
         comic.panels.map panelContent = comicT.panels.map panelContent) ∧
    (∀ (story title style aspectFmt : String) (b : Bool)
       (payload : SubmitPayload),
       handleSubmit story title style aspectFmt b = some payload →
       payload.generate_images = b) := by
  constructor
  · intro pcfg ncfg chars service entropy story title style aspectFmt comic hc
    unfold createComicPipeline at hc
    cases hsp : storyParser pcfg story with
    | error e => rw [hsp] at hc; exact absurd hc (by simp)
    | ok drafts =>
      rw [hsp] at hc
      simp only [if_false, Bool.false_eq_true] at hc
      injection hc with hc'
      subst hc'
      constructor
      · intro p hp
        unfold assembleComic at hp
        obtain ⟨d, _, hd⟩ := List.mem_map.mp hp
        subst hd
        rfl
      · intro comicT hcT
        unfold createComicPipeline at hcT
        rw [hsp] at hcT
        simp only [if_true] at hcT
        injection hcT with hcT'
        subst hcT'
        unfold assembleComic
        simp only [List.map_map]
        rfl
  · intro story title style aspectFmt b payload h
    unfold handleSubmit at h
    by_cases hs : strTrim story = ""
    · rw [if_pos hs] at h
      exact absurd h (by simp)
    · rw [if_neg hs] at h
      injection h with h'
      subst h'
      rfl

theorem generate_images_flag_witness :
    c8Run.1 = .ok c8Comic ∧ (∀ p ∈ c8Comic.panels, p.image = none) ∧
    c8Comic.panels.map panelContent = c8ComicT.panels.map panelContent := by
  have hrun : c8Run.1 = .ok c8Comic := rfl
  have hrunT : c8RunT.1 = .ok c8ComicT := rfl
  have h := generate_images_flag_spec.1 ⟨3, 8⟩ ⟨300000, [90]⟩ [] c8Service 0
    "Aa. Bb. Cc." "T" "S" "4:5" c8Comic hrun
  exact ⟨hrun, h.1, h.2 c8ComicT hrunT⟩

theorem classifyTerminal_index (i : Nat) (o : ServiceOutcome) :
    (classifyTerminal i o).index = i := by
  cases o <;> rfl

theorem normalizePanelResult_index (ncfg : NormalizerConfig)
    (r : PanelResult × Nat) :
    (normalizePanelResult ncfg r).1.index = r.1.index := by
  unfold normalizePanelResult
  cases hi : r.1.image with
  | none => rfl
  | some raw => cases hn : imageNormalizer ncfg raw <;> simp [hn]

theorem imageGenerationAdapter_index (service : Service)
    (req : GenerationRequest) :
    (imageGenerationAdapter service req).1.index = req.panelIndex := by
  unfold imageGenerationAdapter
  cases service req.panelIndex 0 <;> simp [classifyTerminal_index]

theorem generatePanel_index (service : Service) (ncfg : NormalizerConfig)
    (req : GenerationRequest) :
    (generatePanel service ncfg req).1.index = req.panelIndex := by
  unfold generatePanel
  rw [normalizePanelResult_index, imageGenerationAdapter_index]

theorem generatePanel_congr (s₁ s₂ : Service) (ncfg : NormalizerConfig)
    (req : GenerationRequest)
    (h : ∀ a, s₁ req.panelIndex a = s₂ req.panelIndex a) :
    generatePanel s₁ ncfg req = generatePanel s₂ ncfg req := by
  unfold generatePanel imageGenerationAdapter
  rw [h 0, h 1]

theorem generatePanel_moderation (s : Service) (ncfg : NormalizerConfig)
    (req : GenerationRequest) (h : s req.panelIndex 0 = .moderationRejected) :
    (generatePanel s ncfg req).1 =
      { index := req.panelIndex, image := none,
        error := some (.generation .moderationRejected) } := by
  unfold generatePanel imageGenerationAdapter
  rw [h]
  rfl

theorem find?_index_map (genOf : DraftPanel → PanelResult)
    (hg : ∀ d, (genOf d).index = d.index) (ds : List DraftPanel) (i : Nat) :
    (ds.map genOf).find? (fun r => r.index == i) =
      (ds.find? (fun d => d.index == i)).map genOf := by
  induction ds with
  | nil => rfl
  | cons d ds ih =>
    simp only [List.map_cons, List.find?_cons, hg d]
    cases hdi : (d.index == i) with
    | true => rfl
    | false => simpa using ih

theorem panelResultOf_index (s : Service) (ncfg : NormalizerConfig)
    (entropy : Nat) (style aspectFmt : String) (chars : List Character)
    (d : DraftPanel) :
    (panelResultOf s ncfg entropy style aspectFmt chars d).index = d.index := by
  unfold panelResultOf
  rw [generatePanel_index]
  rfl

theorem panelImageFor_map (genOf : DraftPanel → PanelResult)
    (hg : ∀ d, (genOf d).index = d.index) (ds : List DraftPanel) (i : Nat) :
    panelImageFor (ds.map genOf) i =
      match ds.find? (fun d => d.index == i) with
      | some d => (genOf d).image
      | none => none := by
  unfold panelImageFor
  rw [find?_index_map genOf hg]
  cases ds.find? (fun d => d.index == i) <;> rfl

theorem pipeline_ok_panels (pcfg : ParserConfig) (ncfg : NormalizerConfig)
    (chars : List Character) (s : Service) (entropy : Nat)
    (story title style aspectFmt : String) (c : Comic)
    (hc : (createComicPipeline pcfg ncfg chars s entropy story title style
      aspectFmt true).1 = .ok c) :
    ∃ drafts, storyParser pcfg story = .ok drafts ∧
      c.panels = drafts.map (attachResult
        (drafts.map (panelResultOf s ncfg entropy style aspectFmt chars))) := by
  unfold createComicPipeline at hc
  cases hsp : storyParser pcfg story with
  | error e =>
    rw [hsp] at hc
    exact absurd hc (by simp)
  | ok drafts =>
    rw [hsp] at hc
    simp only [if_true] at hc
    injection hc with hc'
    subst hc'
    refine ⟨drafts, rfl, ?_⟩
    unfold assembleComic
    rw [List.map_map]
    rfl

theorem find?_beq_index {ds : List DraftPanel} {d' : DraftPanel} {i : Nat}
    (h : ds.find? (fun x => x.index == i) = some d') : d'.index = i := by
  have hb := List.find?_some h
  exact eq_of_beq hb

/-- Claim C2: a generation failure on one panel (ModerationRejected on
panel k) never removes that panel from the final Comic and never changes any
other panel: against a run whose service agrees on every other panel, the
Comic has the same number of panels with the same indices, the failed panel
carries no image, and every sibling panel is identical. -/
theorem panel_failure_isolated :
    ∀ (pcfg : ParserConfig) (ncfg : NormalizerConfig) (chars : List Character)
      (s₁ s₂ : Service) (entropy : Nat) (story title style aspectFmt : String)
      (k : Nat) (c₁ c₂ : Comic),
      (∀ j, j ≠ k → ∀ a, s₁ j a = s₂ j a) →
      s₁ k 0 = .moderationRejected →
      (createComicPipeline pcfg ncfg chars s₁ entropy story title style
        aspectFmt true).1 = .ok c₁ →
      (createComicPipeline pcfg ncfg chars s₂ entropy story title style
        aspectFmt true).1 = .ok c₂ →
      c₁.panels.length = c₂.panels.length ∧
      c₁.panels.map AssembledPanel.index = c₂.panels.map AssembledPanel.index ∧
      (∀ p ∈ c₁.panels, p.index = k → p.image = none) ∧
      (∀ q ∈ c₁.panels.zip c₂.panels, q.1.index ≠ k → q.1 = q.2) := by
  intro pcfg ncfg chars s₁ s₂ entropy story title style aspectFmt k c₁ c₂
    hagree hmod hc₁ hc₂
  obtain ⟨drafts, hsp₁, hp₁⟩ := pipeline_ok_panels pcfg ncfg chars s₁ entropy
    story title style aspectFmt c₁ hc₁
  obtain ⟨drafts₂, hsp₂, hp₂⟩ := pipeline_ok_panels pcfg ncfg chars s₂ entropy
    story title style aspectFmt c₂ hc₂
  rw [hsp₁] at hsp₂
  injection hsp₂ with hd
  subst hd
  have hg₁ := panelResultOf_index s₁ ncfg entropy style aspectFmt chars
  have hg₂ := panelResultOf_index s₂ ncfg entropy style aspectFmt chars
  have hidx : ∀ d : DraftPanel,
      (enhancePrompt entropy d ⟨style, aspectFmt⟩ chars).panelIndex = d.index :=
    fun _ => rfl
  have hfail : ∀ d' : DraftPanel, d'.index = k →
      (panelResultOf s₁ ncfg entropy style aspectFmt chars d').image = none := by
    intro d' hk'
    unfold panelResultOf
    rw [generatePanel_moderation s₁ ncfg _ (by rw [hidx d', hk']; exact hmod)]
  refine ⟨?_, ?_, ?_, ?_⟩
  · rw [hp₁, hp₂]
    simp
  · rw [hp₁, hp₂, attached_map_index, attached_map_index]
  · intro p hp hpk
    rw [hp₁] at hp
    obtain ⟨d, hd, rfl⟩ := List.mem_map.mp hp
    have hk : d.index = k := hpk
    show panelImageFor
      (drafts.map (panelResultOf s₁ ncfg entropy style aspectFmt chars))
      d.index = none
    rw [panelImageFor_map _ hg₁]
    have hsome : (drafts.find? (fun d' => d'.index == d.index)).isSome :=
      List.find?_isSome.mpr ⟨d, hd, by simp⟩
    obtain ⟨d', hd'⟩ := Option.isSome_iff_exists.mp hsome
    rw [hd']
    exact hfail d' ((find?_beq_index hd').trans hk)
  · intro q hq hne
    rw [hp₁, hp₂, List.zip_map'] at hq
    obtain ⟨d, hd, rfl⟩ := List.mem_map.mp hq
    have hdk : d.index ≠ k := hne
    show attachResult
        (drafts.map (panelResultOf s₁ ncfg entropy style aspectFmt chars)) d =
      attachResult
        (drafts.map (panelResultOf s₂ ncfg entropy style aspectFmt chars)) d
    have himg : panelImageFor
        (drafts.map (panelResultOf s₁ ncfg entropy style aspectFmt chars))
        d.index =
      panelImageFor
        (drafts.map (panelResultOf s₂ ncfg entropy style aspectFmt chars))
        d.index := by
      rw [panelImageFor_map _ hg₁, panelImageFor_map _ hg₂]
      cases hfd : drafts.find? (fun d' => d'.index == d.index) with
      | none => rfl
      | some d' =>
        have hd'i : d'.index = d.index := find?_beq_index hfd
        show (panelResultOf s₁ ncfg entropy style aspectFmt chars d').image =
          (panelResultOf s₂ ncfg entropy style aspectFmt chars d').image
        unfold panelResultOf
        rw [generatePanel_congr s₁ s₂ ncfg _
          (by rw [hidx d', hd'i]; exact hagree d.index hdk)]
    unfold attachResult
    rw [himg]

theorem panel_failure_witness :
    c2Run₁.1 = .ok c2Comic₁ ∧ c2Run₂.1 = .ok c2Comic₂ ∧
    c2Comic₁.panels.length = c2Comic₂.panels.length ∧
    c2Comic₁.panels.map AssembledPanel.index =
      c2Comic₂.panels.map AssembledPanel.index ∧
    (∀ p ∈ c2Comic₁.panels, p.index = 2 → p.image = none) ∧
    (∀ q ∈ c2Comic₁.panels.zip c2Comic₂.panels, q.1.index ≠ 2 → q.1 = q.2) := by
  have h₁ : c2Run₁.1 = .ok c2Comic₁ := rfl
  have h₂ : c2Run₂.1 = .ok c2Comic₂ := rfl
  have h := panel_failure_isolated ⟨3, 8⟩ ⟨300000, [90]⟩ [] c2Fail c2Succeed 0
    "Aa. Bb. Cc. Dd." "T" "S" "4:5" 2 c2Comic₁ c2Comic₂
    (fun j hj a => by simp [c2Fail, c2Succeed, hj]) rfl h₁ h₂
  exact ⟨h₁, h₂, h.1, h.2.1, h.2.2.1, h.2.2.2⟩

